import Mathlib

/-!
Verification of the hot-restart parent protocol handler
(`HotRestartingParent` / `HotRestartingParent::Internal`).

The embedding models the parent-side engine: the message envelope, the
dispatch loop `onSocketEvent` (per-message step `onMessage`), and the
operation set `shutdownAdmin`, `getListenSocketsForChild`,
`getConnectionSocketsForChild`, `getConnectionDataForChild`,
`exportStatsToChild` (with `recordDynamics`), and `drainListeners`.
Machine integers are modelled as `Nat`/`Int`; protobuf maps as association
lists with overwrite-on-assign semantics; the `handlers_` registry
(`std::map<std::string, IoHandle&>`) as an association list to which the
scan conses fresh keys (absence is checked before every insert, so the
std::map no-overwrite insert and cons agree).  The cross-thread
`WaitGroup` rendezvous (readDisable on the worker's dispatcher) has no
observable effect on any reply field and is not modelled.
-/

namespace HotRestart

/-- `const int MAX_FD_SIZE = 100;` -/
def MAX_FD_SIZE : Nat := 100

/-- The state of a registered connection's `IoHandle&` as seen by a later
`getConnectionDataForChild` read: whether the handle is still open, and the
bytes a read would deposit in the scratch buffer. -/
structure Handler where
  isOpen : Bool
  readData : String
deriving DecidableEq

/-- One tracked downstream connection as reached by the scan
(worker → listener → `connections_by_context_` → `connections_`):
whether the `dynamic_cast<ConnectionImpl*>` succeeds, whether its io
handle is open, its local/remote address strings, its fd, the bytes
currently in its read buffer, and the handle state stored into the
registry. -/
structure Conn where
  isConnImpl : Bool
  isOpen : Bool
  localAddr : String
  remoteAddr : String
  fd : Int
  buffer : String
  handler : Handler
deriving DecidableEq

/-- One entry of a connection handler's `getListeners()`:
`tcpListener()` is `nullopt` for non-TCP entries; otherwise the listener
carries its `connections_by_context_` map, each context holding its
`connections_` list. -/
structure WorkerListener where
  isTcp : Bool
  contexts : List (List Conn)
deriving DecidableEq

/-- `envoy::HotRestartMessage_Reply_SocketInfo`: fd plus the optional
buffer field (set only when the captured read buffer is non-empty). -/
structure SocketInfo where
  fd : Int
  buffer : Option String
deriving DecidableEq

/-- The `pass_connection_socket` reply: repeated `sockets` and the
batch-level `has_more_fd` flag. -/
structure PassConnectionSocketReply where
  sockets : List SocketInfo
  has_more_fd : Bool
deriving DecidableEq

/-- The `pass_connection_data` reply: echoed `connection_id` and the
optional `connection_data` bytes. -/
structure PassConnectionDataReply where
  connection_id : String
  connection_data : Option String
deriving DecidableEq

/-- The `shutdown_admin` reply fields. -/
structure ShutdownAdminReply where
  original_start_time_unix_seconds : Nat
  enable_reuse_port_default : Bool
deriving DecidableEq

/-- A gauge in the server's stats store: name, `used()` flag, `value()`,
and the dynamic spans the symbol table reports for its `statName()`. -/
structure Gauge where
  name : String
  used : Bool
  value : Nat
  spans : List (Nat × Nat)
deriving DecidableEq

/-- A counter in the server's stats store: name, `used()` flag, the value
`latch()` returns (the delta since the last flush), and the dynamic spans
the symbol table reports for its `statName()`. -/
structure Counter where
  name : String
  used : Bool
  latch : Nat
  spans : List (Nat × Nat)
deriving DecidableEq

/-- The `stats` reply: gauge values, counter deltas, per-name dynamic
spans, plus the two scalar fields. -/
structure StatsReply where
  gauges : List (String × Nat)
  counter_deltas : List (String × Nat)
  dynamics : List (String × List (Nat × Nat))
  memory_allocated : Nat
  num_connections : Nat
deriving DecidableEq

/-- A configured listener as consulted by `getListenSocketsForChild`:
the socket factory's resolved local address, the `bindToPort()` flag, and
the fd of `getListenSocket(worker_index)` for each worker index. -/
structure Listener where
  localAddress : String
  bindToPort : Bool
  fdOf : Nat → Int

/-- The owning server as seen by `Internal`: listener configuration and
concurrency (for the listen-socket handoff), the address resolver
(`Network::Utility::resolveUrl`), the per-worker connection structure,
the `handlers_` registry, the stats store, the two scalar stat fields,
the values echoed by `shutdownAdmin`, and two effect flags recording the
delegated calls `server_->shutdownAdmin()` / `server_->drainListeners()`. -/
structure Server where
  listeners : List Listener
  concurrency : Nat
  resolve : String → String
  workers : List (List WorkerListener)
  handlers : List (String × Handler)
  gauges : List Gauge
  counters : List Counter
  memoryAllocated : Nat
  numConnections : Nat
  startTimeFirstEpoch : Nat
  enableReusePortDefault : Bool
  adminShutdown : Bool
  drained : Bool

/-- The requests the parent dispatches on (`request_case()`); `unknown`
stands for the `default:` arm (an unfamiliar tag). -/
inductive Req where
  | shutdownAdmin
  | passListenSocket (address : String) (worker_index : Nat)
  | passConnectionSocket
  | passConnectionData (connection_id : String)
  | stats
  | drainListeners
  | terminate
  | unknown
deriving DecidableEq

/-- The envelope (`requestreply_case()`): a request, or a reply (which the
parent never expects to receive). -/
inductive Envelope where
  | request (r : Req)
  | reply
deriving DecidableEq

/-- The messages the parent sends back to `child_address_`. -/
inductive HotRestartReply where
  | didntRecognize
  | shutdownAdmin (r : ShutdownAdminReply)
  | passListenSocket (fd : Int)
  | passConnectionSocket (r : PassConnectionSocketReply)
  | passConnectionData (r : PassConnectionDataReply)
  | stats (r : StatsReply)
deriving DecidableEq

/-- Which `Internal` operation the dispatcher invoked for a message. -/
inductive OpTag where
  | shutdownAdmin
  | passListenSocket
  | passConnectionSocket
  | passConnectionData
  | stats
  | drainListeners
deriving DecidableEq

/-! ## getListenSocketsForChild -/

/-- The listener scan of `getListenSocketsForChild`: the reply fd starts
at `-1`; the first listener whose local address equals the resolved
request address and whose `bindToPort()` holds breaks the loop, setting
the fd only when the requested worker index is below the configured
concurrency. -/
def listenScan (conc : Nat) (addr : String) (idx : Nat) : List Listener → Int
  | [] => -1
  | l :: rest =>
    if l.localAddress = addr ∧ l.bindToPort = true then
      if idx < conc then l.fdOf idx else -1
    else listenScan conc addr idx rest

/-- `HotRestartingParent::Internal::getListenSocketsForChild`, reduced to
the fd it places in the reply. -/
def getListenSocketsForChild (s : Server) (address : String) (worker_index : Nat) : Int :=
  listenScan s.concurrency (s.resolve address) worker_index s.listeners

/-! ## getConnectionDataForChild -/

/-- `HotRestartingParent::Internal::getConnectionDataForChild`: echo the
id; on a registry miss return at once with no payload; otherwise read
from the handle when open and attach the bytes only when non-empty. -/
def getConnectionDataForChild (s : Server) (id : String) : PassConnectionDataReply :=
  match s.handlers.lookup id with
  | none => { connection_id := id, connection_data := none }
  | some h =>
    let buf := if h.isOpen then h.readData else ""
    { connection_id := id
      connection_data := if 0 < buf.length then some buf else none }

/-! ## getConnectionSocketsForChild -/

/-- The registry key: `localAddress->asString() + "_" + peerAddress->asString()`. -/
def connKey (c : Conn) : String := c.localAddr ++ "_" ++ c.remoteAddr

/-- The worker → listener → context → connection iteration order of the
scan, flattened (the C++ `return` exits all four loops at once, so the
nested loops act as one pass over this list). Non-TCP listener entries
are skipped (`tcpListener() == absl::nullopt`). -/
def serverConns (s : Server) : List Conn :=
  s.workers.flatMap fun w =>
    (w.filter fun l => l.isTcp).flatMap fun l =>
      l.contexts.flatMap fun cs => cs

/-- The connection loop of `getConnectionSocketsForChild`: skip failed
downcasts, closed handles, and keys already in `handlers_`; otherwise
capture fd and buffered bytes, append a `SocketInfo`, register the key,
and stop with `has_more_fd` once the batch reaches `MAX_FD_SIZE`.
Returns (sockets, has_more_fd, final registry). -/
def passConnLoop : List Conn → List (String × Handler) → List SocketInfo →
    List SocketInfo × Bool × List (String × Handler)
  | [], handlers, acc => (acc, false, handlers)
  | c :: rest, handlers, acc =>
    if c.isConnImpl = false then passConnLoop rest handlers acc
    else if c.isOpen = false then passConnLoop rest handlers acc
    else if (handlers.lookup (connKey c)).isSome then passConnLoop rest handlers acc
    else
      let si : SocketInfo := { fd := c.fd, buffer := if 0 < c.buffer.length then some c.buffer else none }
      let acc' := acc ++ [si]
      let handlers' := (connKey c, c.handler) :: handlers
      if MAX_FD_SIZE ≤ acc'.length then (acc', true, handlers')
      else passConnLoop rest handlers' acc'

/-- `HotRestartingParent::Internal::getConnectionSocketsForChild`:
the reply plus the updated `handlers_` registry. -/
def getConnectionSocketsForChild (s : Server) :
    PassConnectionSocketReply × List (String × Handler) :=
  let r := passConnLoop (serverConns s) s.handlers []
  ({ sockets := r.1, has_more_fd := r.2.1 }, r.2.2)

/-! ## exportStatsToChild -/

/-- protobuf-map assignment `m[k] = v`: overwrite the binding when the
key is present, otherwise add it. -/
def mapSet {α : Type} : List (String × α) → String → α → List (String × α)
  | [], k, v => [(k, v)]
  | (k', v') :: rest, k, v =>
    if k' = k then (k, v) :: rest else (k', v') :: mapSet rest k v

/-- `HotRestartingParent::Internal::recordDynamics`: when the symbol
table reports a non-empty span list for the stat name, store it in the
reply's `dynamics` map under the name; otherwise leave the reply alone. -/
def recordDynamics (st : StatsReply) (name : String) (spans : List (Nat × Nat)) : StatsReply :=
  if spans.isEmpty then st
  else { st with dynamics := mapSet st.dynamics name spans }

/-- The gauge half of `exportStatsToChild`: every `used()` gauge is
written to the `gauges` map and its dynamics recorded. -/
def exportGauges : List Gauge → StatsReply → StatsReply
  | [], st => st
  | g :: rest, st =>
    if g.used then
      exportGauges rest
        (recordDynamics { st with gauges := mapSet st.gauges g.name g.value } g.name g.spans)
    else exportGauges rest st

/-- The counter half of `exportStatsToChild`: every `used()` counter is
latched, and written to the `counter_deltas` map (with dynamics recorded)
only when the latched delta is strictly positive. -/
def exportCounters : List Counter → StatsReply → StatsReply
  | [], st => st
  | c :: rest, st =>
    if c.used then
      if 0 < c.latch then
        exportCounters rest
          (recordDynamics { st with counter_deltas := mapSet st.counter_deltas c.name c.latch }
            c.name c.spans)
      else exportCounters rest st
    else exportCounters rest st

/-- `HotRestartingParent::Internal::exportStatsToChild`: gauges, then
counters, then the two scalar fields. -/
def exportStatsToChild (s : Server) : StatsReply :=
  let st := exportCounters s.counters
    (exportGauges s.gauges { gauges := [], counter_deltas := [], dynamics := []
                             memory_allocated := 0, num_connections := 0 })
  { st with memory_allocated := s.memoryAllocated, num_connections := s.numConnections }

/-- `counter->latch()` consumes the delta: after an export, every used
counter's pending delta is zero. -/
def latchCounters (cs : List Counter) : List Counter :=
  cs.map fun c => if c.used then { c with latch := 0 } else c

/-! ## The dispatch step (onSocketEvent, per message) -/

/-- The outcome of handling one received envelope: the messages sent to
`child_address_`, which `Internal` operation was dispatched, whether the
process signalled its own termination (`kill(getpid(), SIGTERM)`), and
the updated server state. -/
structure HandlerResult where
  sent : List HotRestartReply
  dispatched : Option OpTag
  terminated : Bool
  after : Server

/-- One iteration of `HotRestartingParent::onSocketEvent` for one
received message: a stray reply or an unfamiliar request tag is answered
with the `didnt_recognize_your_last_message` marker and nothing is
dispatched; otherwise the matching operation runs and its reply (if any)
is sent to the child's address; `kTerminate` sends nothing and signals
termination. -/
def onMessage (s : Server) (m : Envelope) : HandlerResult :=
  match m with
  | .reply => { sent := [.didntRecognize], dispatched := none, terminated := false, after := s }
  | .request r =>
    match r with
    | .shutdownAdmin =>
      { sent := [.shutdownAdmin { original_start_time_unix_seconds := s.startTimeFirstEpoch
                                  enable_reuse_port_default := s.enableReusePortDefault }]
        dispatched := some .shutdownAdmin, terminated := false
        after := { s with adminShutdown := true } }
    | .passListenSocket address worker_index =>
      { sent := [.passListenSocket (getListenSocketsForChild s address worker_index)]
        dispatched := some .passListenSocket, terminated := false, after := s }
    | .passConnectionSocket =>
      let r := getConnectionSocketsForChild s
      { sent := [.passConnectionSocket r.1]
        dispatched := some .passConnectionSocket, terminated := false
        after := { s with handlers := r.2 } }
    | .passConnectionData id =>
      { sent := [.passConnectionData (getConnectionDataForChild s id)]
        dispatched := some .passConnectionData, terminated := false, after := s }
    | .stats =>
      { sent := [.stats (exportStatsToChild s)]
        dispatched := some .stats, terminated := false
        after := { s with counters := latchCounters s.counters } }
    | .drainListeners =>
      { sent := [], dispatched := some .drainListeners, terminated := false
        after := { s with drained := true } }
    | .terminate =>
      { sent := [], dispatched := none, terminated := true, after := s }
    | .unknown =>
      { sent := [.didntRecognize], dispatched := none, terminated := false, after := s }

end HotRestart

namespace HotRestart

/-! ## Concrete servers used by witnesses and counterexamples -/

/-- A minimal concrete server: no listeners, workers, registry entries or
stats. -/
def baseServer : Server where
  listeners := []
  concurrency := 0
  resolve := fun a => a
  workers := []
  handlers := []
  gauges := []
  counters := []
  memoryAllocated := 0
  numConnections := 0
  startTimeFirstEpoch := 0
  enableReusePortDefault := false
  adminShutdown := false
  drained := false

/-! ## Listen-socket handoff lemmas -/

theorem listenScan_of_index_ge (conc : Nat) (addr : String) (idx : Nat)
    (h : conc ≤ idx) : ∀ ll : List Listener, listenScan conc addr idx ll = -1 := by
  intro ll
  induction ll with
  | nil => rfl
  | cons l rest ih =>
    unfold listenScan
    split
    · simp [Nat.not_lt.mpr h]
    · exact ih

theorem listenScan_of_no_match (conc : Nat) (addr : String) (idx : Nat) :
    ∀ ll : List Listener, (∀ l ∈ ll, ¬(l.localAddress = addr ∧ l.bindToPort = true)) →
      listenScan conc addr idx ll = -1 := by
  intro ll
  induction ll with
  | nil => intro _; rfl
  | cons l rest ih =>
    intro h
    unfold listenScan
    split
    · exact absurd (by assumption) (h l (List.mem_cons_self l rest))
    · exact ih fun x hx => h x (List.mem_cons_of_mem l hx)

/-- C3: the `pass_listen_socket` reply carries fd = -1 whenever the
requested worker index is at least the configured concurrency, or no
configured listener has a matching bound address with port binding
allowed. -/
theorem passListenSocket_fd_neg_one (s : Server) (address : String) (idx : Nat)
    (h : s.concurrency ≤ idx ∨
      ∀ l ∈ s.listeners, ¬(l.localAddress = s.resolve address ∧ l.bindToPort = true)) :
    getListenSocketsForChild s address idx = -1 := by
  rcases h with h | h
  · exact listenScan_of_index_ge s.concurrency (s.resolve address) idx h s.listeners
  · exact listenScan_of_no_match s.concurrency (s.resolve address) idx s.listeners h

/-- A server with a single bindable listener at address "a" with
concurrency 2, for the listen-socket witness. -/
def listenServer : Server :=
  { baseServer with
    listeners := [{ localAddress := "a", bindToPort := true, fdOf := fun _ => 7 }]
    concurrency := 2 }

/-- Witness for C3: an out-of-range worker index and a non-matching
address each yield fd = -1 on a concrete server. -/
theorem passListenSocket_fd_neg_one_witness :
    getListenSocketsForChild listenServer "a" 5 = -1 ∧
      getListenSocketsForChild listenServer "b" 0 = -1 := by
  constructor
  · exact passListenSocket_fd_neg_one listenServer "a" 5 (Or.inl (by decide))
  · exact passListenSocket_fd_neg_one listenServer "b" 0 (Or.inr (by decide))

/-! ## Dispatch-step theorems -/

/-- C4: a Reply envelope (where only Requests are expected) and a Request
with an unrecognized tag are each answered with the single
`didnt_recognize_your_last_message` marker reply; no operation is
dispatched and the process is not terminated. -/
theorem onMessage_unrecognized (s : Server) :
    (onMessage s .reply).sent = [.didntRecognize] ∧
      (onMessage s .reply).dispatched = none ∧
      (onMessage s .reply).terminated = false ∧
      (onMessage s (.request .unknown)).sent = [.didntRecognize] ∧
      (onMessage s (.request .unknown)).dispatched = none ∧
      (onMessage s (.request .unknown)).terminated = false :=
  ⟨rfl, rfl, rfl, rfl, rfl, rfl⟩

/-- Counterexample to C7 as stated: on a concrete server, handling a
DrainListeners request sends no message at all back to the child — there
is no acknowledgment reply. -/
theorem drainListeners_no_ack_cex :
    (onMessage baseServer (.request .drainListeners)).sent = [] := rfl

/-- C7 (amended): on a DrainListeners request the handler delegates to
the server's listener-draining operation and sends no reply (the
operation is fire-and-forget); the process is not terminated. -/
theorem drainListeners_dispatch_no_reply (s : Server) :
    (onMessage s (.request .drainListeners)).after.drained = true ∧
      (onMessage s (.request .drainListeners)).dispatched = some .drainListeners ∧
      (onMessage s (.request .drainListeners)).sent = [] ∧
      (onMessage s (.request .drainListeners)).terminated = false :=
  ⟨rfl, rfl, rfl, rfl⟩

/-- C8: a Terminate request produces no reply, signals the process's own
termination, and dispatches no operation; the server state is untouched. -/
theorem terminate_no_reply (s : Server) :
    (onMessage s (.request .terminate)).sent = [] ∧
      (onMessage s (.request .terminate)).terminated = true ∧
      (onMessage s (.request .terminate)).dispatched = none ∧
      (onMessage s (.request .terminate)).after = s :=
  ⟨rfl, rfl, rfl, rfl⟩

/-! ## Connection-data retrieval -/

/-- C5: a `pass_connection_data` request whose id is not a registry key
is answered with exactly the echoed id and no `connection_data` payload
(the operation is total — it completes normally). -/
theorem connectionData_unknown_id (s : Server) (id : String)
    (h : s.handlers.lookup id = none) :
    getConnectionDataForChild s id = { connection_id := id, connection_data := none } := by
  simp [getConnectionDataForChild, h]

/-- Witness for C5: on a server with an empty registry, an arbitrary id
is echoed back with no payload. -/
theorem connectionData_unknown_id_witness :
    getConnectionDataForChild baseServer "10.0.0.1:80_10.0.0.2:5" =
      { connection_id := "10.0.0.1:80_10.0.0.2:5", connection_data := none } :=
  connectionData_unknown_id baseServer "10.0.0.1:80_10.0.0.2:5" rfl

end HotRestart

namespace HotRestart

/-! ## Association-map lemmas for the protobuf maps -/

theorem lookup_mapSet_self {α : Type} (m : List (String × α)) (k : String) (v : α) :
    (mapSet m k v).lookup k = some v := by
  induction m with
  | nil => simp [mapSet, List.lookup]
  | cons p rest ih =>
    obtain ⟨k', v'⟩ := p
    by_cases h : k' = k
    · subst h
      simp [mapSet, List.lookup]
    · have hb : (k == k') = false := beq_eq_false_iff_ne.mpr (Ne.symm h)
      simp [mapSet, h, List.lookup, ih, hb]

theorem lookup_mapSet_ne {α : Type} (m : List (String × α)) (k : String) (v : α)
    (k' : String) (h : k' ≠ k) :
    (mapSet m k v).lookup k' = m.lookup k' := by
  have hb : (k' == k) = false := beq_eq_false_iff_ne.mpr h
  induction m with
  | nil => simp [mapSet, List.lookup, hb]
  | cons p rest ih =>
    obtain ⟨k'', v''⟩ := p
    by_cases h2 : k'' = k
    · subst h2
      simp [mapSet, List.lookup, hb]
    · simp [mapSet, h2, List.lookup, ih]

/-! ## Stats-export phase lemmas -/

theorem recordDynamics_counter_deltas (st : StatsReply) (name : String)
    (spans : List (Nat × Nat)) :
    (recordDynamics st name spans).counter_deltas = st.counter_deltas := by
  unfold recordDynamics
  split <;> rfl

theorem recordDynamics_dyn_lookup_self (st : StatsReply) (name : String)
    (spans : List (Nat × Nat)) :
    ((recordDynamics st name spans).dynamics).lookup name =
      if spans.isEmpty then st.dynamics.lookup name else some spans := by
  unfold recordDynamics
  split
  · simp [*]
  · simp [*, lookup_mapSet_self]

theorem recordDynamics_dyn_lookup_ne (st : StatsReply) (name : String)
    (spans : List (Nat × Nat)) (k : String) (h : k ≠ name) :
    ((recordDynamics st name spans).dynamics).lookup k = st.dynamics.lookup k := by
  unfold recordDynamics
  split
  · rfl
  · simpa using lookup_mapSet_ne st.dynamics name spans k h

theorem exportGauges_counter_deltas (gs : List Gauge) (st : StatsReply) :
    (exportGauges gs st).counter_deltas = st.counter_deltas := by
  induction gs generalizing st with
  | nil => rfl
  | cons g rest ih =>
    unfold exportGauges
    split
    · rw [ih, recordDynamics_counter_deltas]
    · exact ih st

theorem exportCounters_cd_lookup_notmem (cs : List Counter) (st : StatsReply) (name : String)
    (h : name ∉ cs.map Counter.name) :
    ((exportCounters cs st).counter_deltas).lookup name = st.counter_deltas.lookup name := by
  induction cs generalizing st with
  | nil => rfl
  | cons c rest ih =>
    simp only [List.map_cons, List.mem_cons, not_or] at h
    obtain ⟨h1, h2⟩ := h
    unfold exportCounters
    split
    · split
      · rw [ih _ h2, recordDynamics_counter_deltas]
        simpa using lookup_mapSet_ne st.counter_deltas c.name c.latch name h1
      · exact ih _ h2
    · exact ih _ h2

theorem exportCounters_cd_lookup_mem (cs : List Counter) (st : StatsReply) (c : Counter)
    (hnd : (cs.map Counter.name).Nodup) (hc : c ∈ cs) :
    ((exportCounters cs st).counter_deltas).lookup c.name =
      if c.used = true ∧ 0 < c.latch then some c.latch
      else st.counter_deltas.lookup c.name := by
  induction cs generalizing st with
  | nil => cases hc
  | cons d rest ih =>
    simp only [List.map_cons, List.nodup_cons] at hnd
    obtain ⟨hdn, hndr⟩ := hnd
    rcases List.mem_cons.mp hc with heq | hmem
    · subst heq
      have hnotin : c.name ∉ rest.map Counter.name := hdn
      unfold exportCounters
      by_cases hu : c.used
      · rw [if_pos hu]
        by_cases hl : 0 < c.latch
        · rw [if_pos hl]
          rw [exportCounters_cd_lookup_notmem rest _ _ hnotin, recordDynamics_counter_deltas]
          simp [hu, hl, lookup_mapSet_self]
        · rw [if_neg hl]
          rw [exportCounters_cd_lookup_notmem rest st _ hnotin]
          simp [hu, hl]
      · rw [if_neg hu]
        rw [exportCounters_cd_lookup_notmem rest st _ hnotin]
        simp [hu]
    · have hne : c.name ≠ d.name := by
        intro hcontra
        exact hdn (hcontra ▸ List.mem_map_of_mem Counter.name hmem)
      unfold exportCounters
      split
      · split
        · rw [ih _ hndr hmem, recordDynamics_counter_deltas]
          rw [lookup_mapSet_ne st.counter_deltas d.name d.latch c.name hne]
        · exact ih _ hndr hmem
      · exact ih _ hndr hmem

/-- C6: a counter appears in the exported `counter_deltas` map exactly
when it is marked used and its latched delta is strictly positive, and
then its exported value is exactly that latched delta. -/
theorem statsExport_counter_delta (s : Server) (c : Counter)
    (hnd : (s.counters.map Counter.name).Nodup) (hc : c ∈ s.counters) :
    ((exportStatsToChild s).counter_deltas).lookup c.name =
      if c.used = true ∧ 0 < c.latch then some c.latch else none := by
  unfold exportStatsToChild
  simp only []
  rw [exportCounters_cd_lookup_mem s.counters _ c hnd hc, exportGauges_counter_deltas]
  rfl

end HotRestart

namespace HotRestart

theorem exportGauges_dyn_lookup_notmem (gs : List Gauge) (st : StatsReply) (name : String)
    (h : name ∉ gs.map Gauge.name) :
    ((exportGauges gs st).dynamics).lookup name = st.dynamics.lookup name := by
  induction gs generalizing st with
  | nil => rfl
  | cons g rest ih =>
    simp only [List.map_cons, List.mem_cons, not_or] at h
    obtain ⟨h1, h2⟩ := h
    unfold exportGauges
    split
    · rw [ih _ h2, recordDynamics_dyn_lookup_ne _ _ _ _ h1]
    · exact ih _ h2

theorem exportGauges_dyn_lookup_mem (gs : List Gauge) (st : StatsReply) (g : Gauge)
    (hnd : (gs.map Gauge.name).Nodup) (hg : g ∈ gs) (hu : g.used = true) :
    ((exportGauges gs st).dynamics).lookup g.name =
      if g.spans.isEmpty then st.dynamics.lookup g.name else some g.spans := by
  induction gs generalizing st with
  | nil => cases hg
  | cons d rest ih =>
    simp only [List.map_cons, List.nodup_cons] at hnd
    obtain ⟨hdn, hndr⟩ := hnd
    rcases List.mem_cons.mp hg with heq | hmem
    · subst heq
      unfold exportGauges
      rw [if_pos hu]
      rw [exportGauges_dyn_lookup_notmem rest _ _ hdn, recordDynamics_dyn_lookup_self]
    · have hne : g.name ≠ d.name := fun hcontra =>
        hdn (hcontra ▸ List.mem_map_of_mem Gauge.name hmem)
      unfold exportGauges
      split
      · rw [ih _ hndr hmem, recordDynamics_dyn_lookup_ne _ _ _ _ hne]
      · exact ih _ hndr hmem

theorem exportCounters_dyn_lookup_notmem (cs : List Counter) (st : StatsReply) (name : String)
    (h : name ∉ cs.map Counter.name) :
    ((exportCounters cs st).dynamics).lookup name = st.dynamics.lookup name := by
  induction cs generalizing st with
  | nil => rfl
  | cons c rest ih =>
    simp only [List.map_cons, List.mem_cons, not_or] at h
    obtain ⟨h1, h2⟩ := h
    unfold exportCounters
    split
    · split
      · rw [ih _ h2, recordDynamics_dyn_lookup_ne _ _ _ _ h1]
      · exact ih _ h2
    · exact ih _ h2

theorem exportCounters_dyn_lookup_mem (cs : List Counter) (st : StatsReply) (c : Counter)
    (hnd : (cs.map Counter.name).Nodup) (hc : c ∈ cs) (hu : c.used = true)
    (hl : 0 < c.latch) :
    ((exportCounters cs st).dynamics).lookup c.name =
      if c.spans.isEmpty then st.dynamics.lookup c.name else some c.spans := by
  induction cs generalizing st with
  | nil => cases hc
  | cons d rest ih =>
    simp only [List.map_cons, List.nodup_cons] at hnd
    obtain ⟨hdn, hndr⟩ := hnd
    rcases List.mem_cons.mp hc with heq | hmem
    · subst heq
      unfold exportCounters
      rw [if_pos hu, if_pos hl]
      rw [exportCounters_dyn_lookup_notmem rest _ _ hdn, recordDynamics_dyn_lookup_self]
    · have hne : c.name ≠ d.name := fun hcontra =>
        hdn (hcontra ▸ List.mem_map_of_mem Counter.name hmem)
      unfold exportCounters
      split
      · split
        · rw [ih _ hndr hmem, recordDynamics_dyn_lookup_ne _ _ _ _ hne]
        · exact ih _ hndr hmem
      · exact ih _ hndr hmem

/-- C9: every metric name exported by the stats export (a used gauge, or
a used counter with positive latched delta) gets a `dynamics` entry
exactly when the symbol table reports a non-empty span list for it, and
the entry is that span list. -/
theorem statsExport_dynamics (s : Server)
    (hnd : (s.gauges.map Gauge.name ++ s.counters.map Counter.name).Nodup) :
    (∀ g ∈ s.gauges, g.used = true →
      ((exportStatsToChild s).dynamics).lookup g.name =
        if g.spans.isEmpty then none else some g.spans) ∧
    (∀ c ∈ s.counters, c.used = true → 0 < c.latch →
      ((exportStatsToChild s).dynamics).lookup c.name =
        if c.spans.isEmpty then none else some c.spans) := by
  rw [List.nodup_append] at hnd
  obtain ⟨hgn, hcn, hdisj⟩ := hnd
  constructor
  · intro g hgm hu
    have hnotc : g.name ∉ s.counters.map Counter.name :=
      hdisj (List.mem_map_of_mem Gauge.name hgm)
    unfold exportStatsToChild
    simp only []
    rw [exportCounters_dyn_lookup_notmem _ _ _ hnotc,
      exportGauges_dyn_lookup_mem s.gauges _ g hgn hgm hu]
    rfl
  · intro c hcm hu hl
    have hnotg : c.name ∉ s.gauges.map Gauge.name := fun hmm =>
      hdisj hmm (List.mem_map_of_mem Counter.name hcm)
    unfold exportStatsToChild
    simp only []
    rw [exportCounters_dyn_lookup_mem s.counters _ c hcn hcm hu hl,
      exportGauges_dyn_lookup_notmem s.gauges _ _ hnotg]
    rfl

/-- A concrete server with a mixed stats store, for the stats witnesses. -/
def statsServer : Server :=
  { baseServer with
    gauges := [{ name := "gdyn", used := true, value := 3, spans := [(1, 2)] },
               { name := "gstatic", used := true, value := 4, spans := [] }]
    counters := [{ name := "chit", used := true, latch := 5, spans := [(0, 1)] },
                 { name := "czero", used := true, latch := 0, spans := [] },
                 { name := "cunused", used := false, latch := 7, spans := [] }] }

/-- Witness for C6: the used counter with positive delta is exported with
exactly its delta; the zero-delta and unused counters are absent. -/
theorem statsExport_counter_delta_witness :
    ((exportStatsToChild statsServer).counter_deltas).lookup "chit" = some 5 ∧
      ((exportStatsToChild statsServer).counter_deltas).lookup "czero" = none ∧
      ((exportStatsToChild statsServer).counter_deltas).lookup "cunused" = none := by
  refine ⟨?_, ?_, ?_⟩
  · have h := statsExport_counter_delta statsServer
      { name := "chit", used := true, latch := 5, spans := [(0, 1)] } (by decide) (by decide)
    simpa using h
  · have h := statsExport_counter_delta statsServer
      { name := "czero", used := true, latch := 0, spans := [] } (by decide) (by decide)
    simpa using h
  · have h := statsExport_counter_delta statsServer
      { name := "cunused", used := false, latch := 7, spans := [] } (by decide) (by decide)
    simpa using h

/-- Witness for C9: the gauge with one dynamic span gets exactly that
span entry, the all-static gauge gets none, and the exported counter's
spans are attached. -/
theorem statsExport_dynamics_witness :
    ((exportStatsToChild statsServer).dynamics).lookup "gdyn" = some [(1, 2)] ∧
      ((exportStatsToChild statsServer).dynamics).lookup "gstatic" = none ∧
      ((exportStatsToChild statsServer).dynamics).lookup "chit" = some [(0, 1)] := by
  have h := statsExport_dynamics statsServer (by decide)
  refine ⟨?_, ?_, ?_⟩
  · simpa using h.1 { name := "gdyn", used := true, value := 3, spans := [(1, 2)] }
      (by decide) rfl
  · simpa using h.1 { name := "gstatic", used := true, value := 4, spans := [] }
      (by decide) rfl
  · simpa using h.2 { name := "chit", used := true, latch := 5, spans := [(0, 1)] }
      (by decide) rfl (by decide)

end HotRestart

namespace HotRestart

/-! ## Connection-scan lemmas -/

/-- The `SocketInfo` the loop appends for a connection: its fd and, when
the captured read buffer is non-empty, its bytes. -/
def connSI (c : Conn) : SocketInfo :=
  { fd := c.fd, buffer := if 0 < c.buffer.length then some c.buffer else none }

/-- The keys of the `handlers_` registry. -/
def regKeys (h : List (String × Handler)) : List String := h.map Prod.fst

theorem passConnLoop_cons (c : Conn) (rest : List Conn)
    (handlers : List (String × Handler)) (acc : List SocketInfo) :
    passConnLoop (c :: rest) handlers acc =
      if c.isConnImpl = false then passConnLoop rest handlers acc
      else if c.isOpen = false then passConnLoop rest handlers acc
      else if (handlers.lookup (connKey c)).isSome then passConnLoop rest handlers acc
      else if MAX_FD_SIZE ≤ (acc ++ [connSI c]).length then
        (acc ++ [connSI c], true, (connKey c, c.handler) :: handlers)
      else passConnLoop rest ((connKey c, c.handler) :: handlers) (acc ++ [connSI c]) := rfl

theorem getConnectionSocketsForChild_def (s : Server) :
    getConnectionSocketsForChild s =
      ({ sockets := (passConnLoop (serverConns s) s.handlers []).1
         has_more_fd := (passConnLoop (serverConns s) s.handlers []).2.1 },
        (passConnLoop (serverConns s) s.handlers []).2.2) := rfl

theorem lookup_cons_self (h : List (String × Handler)) (k : String) (v : Handler) :
    ((((k, v) :: h)).lookup k).isSome = true := by
  simp [List.lookup]

theorem lookup_cons_isSome (h : List (String × Handler)) (k k' : String) (v : Handler)
    (hk : (h.lookup k).isSome = true) : ((((k', v) :: h)).lookup k).isSome = true := by
  by_cases hkc : k = k'
  · simp [List.lookup, hkc]
  · simpa [List.lookup, beq_eq_false_iff_ne.mpr hkc] using hk

theorem lookup_isSome_iff_mem (h : List (String × Handler)) (k : String) :
    (h.lookup k).isSome = true ↔ k ∈ regKeys h := by
  induction h with
  | nil => simp [List.lookup, regKeys]
  | cons p rest ih =>
    obtain ⟨k', v⟩ := p
    by_cases hk : k = k'
    · simp [List.lookup, hk, regKeys]
    · simp only [List.lookup, beq_eq_false_iff_ne.mpr hk, regKeys, List.map_cons,
        List.mem_cons]
      simp only [regKeys] at ih
      simp [ih, hk]

/-- The registry only grows: a key present before the scan is present
after it. -/
theorem passConnLoop_registry_mono (l : List Conn) (h : List (String × Handler))
    (acc : List SocketInfo) (k : String) (hk : (h.lookup k).isSome = true) :
    (((passConnLoop l h acc).2.2).lookup k).isSome = true := by
  induction l generalizing h acc with
  | nil => exact hk
  | cons c rest ih =>
    rw [passConnLoop_cons]
    by_cases h1 : c.isConnImpl = false
    · rw [if_pos h1]; exact ih h acc hk
    rw [if_neg h1]
    by_cases h2 : c.isOpen = false
    · rw [if_pos h2]; exact ih h acc hk
    rw [if_neg h2]
    by_cases h3 : (h.lookup (connKey c)).isSome
    · rw [if_pos h3]; exact ih h acc hk
    rw [if_neg h3]
    by_cases h4 : MAX_FD_SIZE ≤ (acc ++ [connSI c]).length
    · rw [if_pos h4]
      exact lookup_cons_isSome h k (connKey c) c.handler hk
    · rw [if_neg h4]
      exact ih _ _ (lookup_cons_isSome h k (connKey c) c.handler hk)

/-- The reply batch never exceeds `MAX_FD_SIZE` entries. -/
theorem passConnLoop_length_le (l : List Conn) (h : List (String × Handler))
    (acc : List SocketInfo) (ha : acc.length < MAX_FD_SIZE) :
    (passConnLoop l h acc).1.length ≤ MAX_FD_SIZE := by
  induction l generalizing h acc with
  | nil => exact Nat.le_of_lt ha
  | cons c rest ih =>
    rw [passConnLoop_cons]
    by_cases h1 : c.isConnImpl = false
    · rw [if_pos h1]; exact ih h acc ha
    rw [if_neg h1]
    by_cases h2 : c.isOpen = false
    · rw [if_pos h2]; exact ih h acc ha
    rw [if_neg h2]
    by_cases h3 : (h.lookup (connKey c)).isSome
    · rw [if_pos h3]; exact ih h acc ha
    rw [if_neg h3]
    by_cases h4 : MAX_FD_SIZE ≤ (acc ++ [connSI c]).length
    · rw [if_pos h4]
      simpa [List.length_append] using Nat.succ_le_of_lt ha
    · rw [if_neg h4]
      exact ih _ _ (Nat.lt_of_not_le h4)

/-- If the scan terminated without setting `has_more_fd`, every open TCP
connection of the scan is registered in the final registry. -/
theorem passConnLoop_complete (l : List Conn) (h : List (String × Handler))
    (acc : List SocketInfo) (hm : (passConnLoop l h acc).2.1 = false) :
    ∀ c ∈ l, c.isConnImpl = true → c.isOpen = true →
      (((passConnLoop l h acc).2.2).lookup (connKey c)).isSome = true := by
  induction l generalizing h acc with
  | nil => intro c hc; cases hc
  | cons d rest ih =>
    rw [passConnLoop_cons] at hm ⊢
    intro c hc hImpl hOpen
    by_cases h1 : d.isConnImpl = false
    · rw [if_pos h1] at hm ⊢
      rcases List.mem_cons.mp hc with heq | hmem
      · subst heq; rw [hImpl] at h1; cases h1
      · exact ih h acc hm c hmem hImpl hOpen
    rw [if_neg h1] at hm ⊢
    by_cases h2 : d.isOpen = false
    · rw [if_pos h2] at hm ⊢
      rcases List.mem_cons.mp hc with heq | hmem
      · subst heq; rw [hOpen] at h2; cases h2
      · exact ih h acc hm c hmem hImpl hOpen
    rw [if_neg h2] at hm ⊢
    by_cases h3 : (h.lookup (connKey d)).isSome
    · rw [if_pos h3] at hm ⊢
      rcases List.mem_cons.mp hc with heq | hmem
      · subst heq
        exact passConnLoop_registry_mono rest h acc (connKey c) h3
      · exact ih h acc hm c hmem hImpl hOpen
    rw [if_neg h3] at hm ⊢
    by_cases h4 : MAX_FD_SIZE ≤ (acc ++ [connSI d]).length
    · rw [if_pos h4] at hm
      cases hm
    · rw [if_neg h4] at hm ⊢
      rcases List.mem_cons.mp hc with heq | hmem
      · subst heq
        exact passConnLoop_registry_mono rest _ _ (connKey c)
          (lookup_cons_self h (connKey c) c.handler)
      · exact ih _ _ hm c hmem hImpl hOpen

/-- C1: a connection-socket reply batch never holds more than
`MAX_FD_SIZE` (100) entries, and if an eligible connection is still
missing from the registry when the reply is produced, `has_more_fd` is
set. -/
theorem passConnectionSocket_batch (s : Server) :
    (getConnectionSocketsForChild s).1.sockets.length ≤ MAX_FD_SIZE ∧
      ((∃ c, c ∈ serverConns s ∧ c.isConnImpl = true ∧ c.isOpen = true ∧
          ((getConnectionSocketsForChild s).2.lookup (connKey c)) = none) →
        (getConnectionSocketsForChild s).1.has_more_fd = true) := by
  rw [getConnectionSocketsForChild_def]
  constructor
  · exact passConnLoop_length_le (serverConns s) s.handlers [] (by simp [MAX_FD_SIZE])
  · rintro ⟨c, hc, hImpl, hOpen, hnone⟩
    by_contra hmore
    have hfalse : (passConnLoop (serverConns s) s.handlers []).2.1 = false := by
      cases hb : (passConnLoop (serverConns s) s.handlers []).2.1
      · rfl
      · exact absurd hb hmore
    have hsome := passConnLoop_complete (serverConns s) s.handlers [] hfalse c hc hImpl hOpen
    rw [hnone] at hsome
    cases hsome

end HotRestart

namespace HotRestart

theorem regKeys_cons (k : String) (v : Handler) (h : List (String × Handler)) :
    regKeys ((k, v) :: h) = k :: regKeys h := rfl

/-- Ghost trace of the scan: the registry keys the loop appends, in
append order, mirroring `passConnLoop`'s control flow (`n` is the running
`sockets_size()`). -/
def passConnLoopKeys : List Conn → List (String × Handler) → Nat → List String
  | [], _, _ => []
  | c :: rest, handlers, n =>
    if c.isConnImpl = false then passConnLoopKeys rest handlers n
    else if c.isOpen = false then passConnLoopKeys rest handlers n
    else if (handlers.lookup (connKey c)).isSome then passConnLoopKeys rest handlers n
    else if MAX_FD_SIZE ≤ n + 1 then [connKey c]
    else connKey c :: passConnLoopKeys rest ((connKey c, c.handler) :: handlers) (n + 1)

theorem passConnLoopKeys_cons (c : Conn) (rest : List Conn)
    (h : List (String × Handler)) (n : Nat) :
    passConnLoopKeys (c :: rest) h n =
      if c.isConnImpl = false then passConnLoopKeys rest h n
      else if c.isOpen = false then passConnLoopKeys rest h n
      else if (h.lookup (connKey c)).isSome then passConnLoopKeys rest h n
      else if MAX_FD_SIZE ≤ n + 1 then [connKey c]
      else connKey c :: passConnLoopKeys rest ((connKey c, c.handler) :: h) (n + 1) := rfl

/-- The final registry is exactly the appended keys (newest first) in
front of the initial registry. -/
theorem passConnLoop_regKeys (l : List Conn) (h : List (String × Handler))
    (acc : List SocketInfo) :
    regKeys (passConnLoop l h acc).2.2 =
      (passConnLoopKeys l h acc.length).reverse ++ regKeys h := by
  induction l generalizing h acc with
  | nil => simp [passConnLoop, passConnLoopKeys]
  | cons c rest ih =>
    rw [passConnLoop_cons, passConnLoopKeys_cons]
    have hlen : (acc ++ [connSI c]).length = acc.length + 1 := by simp
    by_cases h1 : c.isConnImpl = false
    · rw [if_pos h1, if_pos h1]; exact ih h acc
    rw [if_neg h1, if_neg h1]
    by_cases h2 : c.isOpen = false
    · rw [if_pos h2, if_pos h2]; exact ih h acc
    rw [if_neg h2, if_neg h2]
    by_cases h3 : (h.lookup (connKey c)).isSome
    · rw [if_pos h3, if_pos h3]; exact ih h acc
    rw [if_neg h3, if_neg h3, hlen]
    by_cases h4 : MAX_FD_SIZE ≤ acc.length + 1
    · rw [if_pos h4, if_pos h4]
      simp [regKeys_cons]
    · rw [if_neg h4, if_neg h4]
      rw [ih ((connKey c, c.handler) :: h) (acc ++ [connSI c]), hlen, regKeys_cons]
      simp [List.reverse_cons, List.append_assoc]

theorem passConnLoop_regKeys_nil (l : List Conn) (h : List (String × Handler)) :
    regKeys (passConnLoop l h []).2.2 = (passConnLoopKeys l h 0).reverse ++ regKeys h := by
  simpa using passConnLoop_regKeys l h []

/-- Every key the scan appends was absent from the registry it started
from. -/
theorem passConnLoopKeys_fresh (l : List Conn) (h : List (String × Handler)) (n : Nat)
    (k : String) (hk : k ∈ passConnLoopKeys l h n) : ¬ k ∈ regKeys h := by
  induction l generalizing h n with
  | nil => simp [passConnLoopKeys] at hk
  | cons c rest ih =>
    rw [passConnLoopKeys_cons] at hk
    by_cases h1 : c.isConnImpl = false
    · rw [if_pos h1] at hk; exact ih _ _ hk
    rw [if_neg h1] at hk
    by_cases h2 : c.isOpen = false
    · rw [if_pos h2] at hk; exact ih _ _ hk
    rw [if_neg h2] at hk
    by_cases h3 : (h.lookup (connKey c)).isSome
    · rw [if_pos h3] at hk; exact ih _ _ hk
    rw [if_neg h3] at hk
    by_cases h4 : MAX_FD_SIZE ≤ n + 1
    · rw [if_pos h4] at hk
      have heq : k = connKey c := by simpa using hk
      subst heq
      intro hmem
      exact h3 ((lookup_isSome_iff_mem h _).mpr hmem)
    · rw [if_neg h4] at hk
      rcases List.mem_cons.mp hk with heq | hm
      · subst heq
        intro hmem
        exact h3 ((lookup_isSome_iff_mem h _).mpr hmem)
      · have hni := ih _ _ hm
        rw [regKeys_cons] at hni
        intro hmem
        exact hni (List.mem_cons_of_mem _ hmem)

/-- The scan never appends the same key twice within one invocation. -/
theorem passConnLoopKeys_nodup (l : List Conn) (h : List (String × Handler)) (n : Nat) :
    (passConnLoopKeys l h n).Nodup := by
  induction l generalizing h n with
  | nil => simp [passConnLoopKeys]
  | cons c rest ih =>
    rw [passConnLoopKeys_cons]
    by_cases h1 : c.isConnImpl = false
    · rw [if_pos h1]; exact ih _ _
    rw [if_neg h1]
    by_cases h2 : c.isOpen = false
    · rw [if_pos h2]; exact ih _ _
    rw [if_neg h2]
    by_cases h3 : (h.lookup (connKey c)).isSome
    · rw [if_pos h3]; exact ih _ _
    rw [if_neg h3]
    by_cases h4 : MAX_FD_SIZE ≤ n + 1
    · rw [if_pos h4]; simp
    · rw [if_neg h4]
      refine List.nodup_cons.mpr ⟨?_, ih _ _⟩
      intro hmem
      exact passConnLoopKeys_fresh rest _ _ _ hmem (by rw [regKeys_cons]; exact List.mem_cons_self _ _)

/-- The keys a single `PassConnectionSocket` invocation adds to the
registry — the registry growth of `getConnectionSocketsForChild`, one key
per appended `SocketInfo`. -/
def invocationExported (l : List Conn) (h : List (String × Handler)) : List String :=
  (regKeys (passConnLoop l h []).2.2).take ((passConnLoop l h []).2.2.length - h.length)

theorem invocationExported_eq (l : List Conn) (h : List (String × Handler)) :
    invocationExported l h = (passConnLoopKeys l h 0).reverse := by
  unfold invocationExported
  have hm := passConnLoop_regKeys_nil l h
  have hlen : (passConnLoop l h []).2.2.length =
      (passConnLoopKeys l h 0).reverse.length + h.length := by
    have h1 : (passConnLoop l h []).2.2.length = (regKeys (passConnLoop l h []).2.2).length := by
      simp [regKeys]
    rw [h1, hm]
    simp [regKeys]
  rw [hm, hlen, Nat.add_sub_cancel]
  have h2 : (regKeys h).length = ((passConnLoopKeys l h 0).reverse ++ regKeys h).length -
      (passConnLoopKeys l h 0).reverse.length := by simp
  exact List.take_left _ _

/-- A sequence of `PassConnectionSocket` invocations (one scan list per
invocation, the registry threaded through): the exported key batches. -/
def runSeq : List (List Conn) → List (String × Handler) → List (List String)
  | [], _ => []
  | l :: ls, h => invocationExported l h :: runSeq ls ((passConnLoop l h []).2.2)

/-- C2: across any sequence of `PassConnectionSocket` invocations, no
connection key is ever exported twice, and no key already in the registry
at the start is ever exported. -/
theorem passConnectionSocket_no_reexport (ls : List (List Conn))
    (h : List (String × Handler)) :
    ((runSeq ls h).flatten).Nodup ∧ ∀ k ∈ (runSeq ls h).flatten, ¬ k ∈ regKeys h := by
  induction ls generalizing h with
  | nil => simp [runSeq]
  | cons l rest ih =>
    obtain ⟨ihn, ihf⟩ := ih ((passConnLoop l h []).2.2)
    rw [runSeq, List.flatten_cons]
    constructor
    · rw [List.nodup_append]
      refine ⟨?_, ihn, ?_⟩
      · rw [invocationExported_eq]
        simpa using passConnLoopKeys_nodup l h 0
      · intro k hk hk2
        apply ihf k hk2
        rw [passConnLoop_regKeys_nil]
        rw [invocationExported_eq] at hk
        exact List.mem_append_left _ hk
    · intro k hk
      rcases List.mem_append.mp hk with hkl | hkr
      · rw [invocationExported_eq] at hkl
        exact passConnLoopKeys_fresh l h 0 k (List.mem_reverse.mp hkl)
      · intro hmem
        apply ihf k hkr
        rw [passConnLoop_regKeys_nil]
        exact List.mem_append_right _ hmem

end HotRestart

namespace HotRestart

/-- The connections an invocation would newly export: those passing the
loop's three skip tests against the starting registry (mirrors the loop's
conditions, without the batch cutoff). -/
def eligibleNew : List Conn → List (String × Handler) → List Conn
  | [], _ => []
  | c :: rest, h =>
    if c.isConnImpl = false then eligibleNew rest h
    else if c.isOpen = false then eligibleNew rest h
    else if (h.lookup (connKey c)).isSome then eligibleNew rest h
    else c :: eligibleNew rest h

theorem eligibleNew_cons (c : Conn) (rest : List Conn) (h : List (String × Handler)) :
    eligibleNew (c :: rest) h =
      if c.isConnImpl = false then eligibleNew rest h
      else if c.isOpen = false then eligibleNew rest h
      else if (h.lookup (connKey c)).isSome then eligibleNew rest h
      else c :: eligibleNew rest h := rfl

/-- Inserting a key that no eligible connection carries does not change
the eligible set. -/
theorem eligibleNew_insert (l : List Conn) (h : List (String × Handler))
    (k : String) (v : Handler) (hk : ¬ k ∈ (eligibleNew l h).map connKey) :
    eligibleNew l ((k, v) :: h) = eligibleNew l h := by
  induction l with
  | nil => rfl
  | cons c rest ih =>
    rw [eligibleNew_cons, eligibleNew_cons]
    by_cases h1 : c.isConnImpl = false
    · rw [if_pos h1, if_pos h1]
      rw [eligibleNew_cons, if_pos h1] at hk
      exact ih hk
    rw [if_neg h1, if_neg h1]
    by_cases h2 : c.isOpen = false
    · rw [if_pos h2, if_pos h2]
      rw [eligibleNew_cons, if_neg h1, if_pos h2] at hk
      exact ih hk
    rw [if_neg h2, if_neg h2]
    by_cases h3 : (h.lookup (connKey c)).isSome
    · have h3' : ((((k, v) :: h)).lookup (connKey c)).isSome = true :=
        lookup_cons_isSome h (connKey c) k v h3
      rw [if_pos h3', if_pos h3]
      rw [eligibleNew_cons, if_neg h1, if_neg h2, if_pos h3] at hk
      exact ih hk
    · rw [eligibleNew_cons, if_neg h1, if_neg h2, if_neg h3] at hk
      have hkc : k ≠ connKey c := by
        intro he
        exact hk (by rw [he]; exact List.mem_map_of_mem connKey (List.mem_cons_self c _))
      have h3f : (h.lookup (connKey c)).isSome = false := by
        cases hx : (h.lookup (connKey c)).isSome
        · rfl
        · exact absurd hx h3
      have h3' : ((((k, v) :: h)).lookup (connKey c)).isSome = false := by
        simp [List.lookup, beq_eq_false_iff_ne.mpr (Ne.symm hkc), h3f]
      rw [if_neg (by simp [h3']), if_neg h3]
      have hk' : ¬ k ∈ (eligibleNew rest h).map connKey := by
        intro hm
        exact hk (by rw [List.map_cons]; exact List.mem_cons_of_mem _ hm)
      rw [ih hk']

/-- An open TCP connection in the scan with an unregistered key is
eligible. -/
theorem mem_eligibleNew (l : List Conn) (h : List (String × Handler)) (d : Conn)
    (hd : d ∈ l) (hI : d.isConnImpl = true) (hO : d.isOpen = true)
    (hl : ¬ (h.lookup (connKey d)).isSome = true) : d ∈ eligibleNew l h := by
  induction l with
  | nil => cases hd
  | cons c rest ih =>
    rw [eligibleNew_cons]
    rcases List.mem_cons.mp hd with heq | hm
    · subst heq
      rw [if_neg (by simp [hI]), if_neg (by simp [hO]), if_neg hl]
      exact List.mem_cons_self _ _
    · by_cases h1 : c.isConnImpl = false
      · rw [if_pos h1]; exact ih hm
      rw [if_neg h1]
      by_cases h2 : c.isOpen = false
      · rw [if_pos h2]; exact ih hm
      rw [if_neg h2]
      by_cases h3 : (h.lookup (connKey c)).isSome
      · rw [if_pos h3]; exact ih hm
      · rw [if_neg h3]; exact List.mem_cons_of_mem _ (ih hm)

/-- When the eligible set exactly fills the batch, the loop exports all
of it, sets `has_more_fd`, and registers every open TCP connection of
the scan. -/
theorem passConnLoop_fill (l : List Conn) (h : List (String × Handler))
    (acc : List SocketInfo)
    (hlen : acc.length + (eligibleNew l h).length = MAX_FD_SIZE)
    (hlt : acc.length < MAX_FD_SIZE)
    (hnd : ((eligibleNew l h).map connKey).Nodup) :
    (passConnLoop l h acc).1.length = MAX_FD_SIZE ∧
      (passConnLoop l h acc).2.1 = true ∧
      ∀ c ∈ l, c.isConnImpl = true → c.isOpen = true →
        (((passConnLoop l h acc).2.2).lookup (connKey c)).isSome = true := by
  induction l generalizing h acc with
  | nil =>
    rw [eligibleNew] at hlen
    simp at hlen
    exact absurd hlen (Nat.ne_of_lt hlt)
  | cons c rest ih =>
    rw [passConnLoop_cons]
    by_cases h1 : c.isConnImpl = false
    · rw [if_pos h1]
      rw [eligibleNew_cons, if_pos h1] at hlen hnd
      obtain ⟨ha, hb, hcl⟩ := ih h acc hlen hlt hnd
      refine ⟨ha, hb, ?_⟩
      intro d hd hI hO
      rcases List.mem_cons.mp hd with heq | hm
      · subst heq; rw [hI] at h1; cases h1
      · exact hcl d hm hI hO
    rw [if_neg h1]
    by_cases h2 : c.isOpen = false
    · rw [if_pos h2]
      rw [eligibleNew_cons, if_neg h1, if_pos h2] at hlen hnd
      obtain ⟨ha, hb, hcl⟩ := ih h acc hlen hlt hnd
      refine ⟨ha, hb, ?_⟩
      intro d hd hI hO
      rcases List.mem_cons.mp hd with heq | hm
      · subst heq; rw [hO] at h2; cases h2
      · exact hcl d hm hI hO
    rw [if_neg h2]
    by_cases h3 : (h.lookup (connKey c)).isSome
    · rw [if_pos h3]
      rw [eligibleNew_cons, if_neg h1, if_neg h2, if_pos h3] at hlen hnd
      obtain ⟨ha, hb, hcl⟩ := ih h acc hlen hlt hnd
      refine ⟨ha, hb, ?_⟩
      intro d hd hI hO
      rcases List.mem_cons.mp hd with heq | hm
      · subst heq; exact passConnLoop_registry_mono rest h acc _ h3
      · exact hcl d hm hI hO
    rw [if_neg h3]
    rw [eligibleNew_cons, if_neg h1, if_neg h2, if_neg h3] at hlen hnd
    simp only [List.length_cons] at hlen
    simp only [List.map_cons, List.nodup_cons] at hnd
    obtain ⟨hknot, hndr⟩ := hnd
    have hlenacc : (acc ++ [connSI c]).length = acc.length + 1 := by simp
    by_cases h4 : MAX_FD_SIZE ≤ (acc ++ [connSI c]).length
    · rw [if_pos h4]
      rw [hlenacc] at h4
      have hrest0 : (eligibleNew rest h).length = 0 := by omega
      refine ⟨by rw [hlenacc]; omega, rfl, ?_⟩
      intro d hd hI hO
      rcases List.mem_cons.mp hd with heq | hm
      · subst heq; exact lookup_cons_self h (connKey d) d.handler
      · by_cases hl : (h.lookup (connKey d)).isSome
        · exact lookup_cons_isSome h _ _ _ hl
        · exfalso
          have hdmem : d ∈ eligibleNew rest h := mem_eligibleNew rest h d hm hI hO hl
          rw [List.length_eq_zero] at hrest0
          rw [hrest0] at hdmem
          cases hdmem
    · rw [if_neg h4]
      rw [hlenacc] at h4
      have hfresh : eligibleNew rest ((connKey c, c.handler) :: h) = eligibleNew rest h :=
        eligibleNew_insert rest h (connKey c) c.handler hknot
      have hlen' : (acc ++ [connSI c]).length +
          (eligibleNew rest ((connKey c, c.handler) :: h)).length = MAX_FD_SIZE := by
        rw [hlenacc, hfresh]; omega
      have hlt' : (acc ++ [connSI c]).length < MAX_FD_SIZE := by rw [hlenacc]; omega
      have hnd' : ((eligibleNew rest ((connKey c, c.handler) :: h)).map connKey).Nodup := by
        rw [hfresh]; exact hndr
      obtain ⟨ha, hb, hcl⟩ := ih _ _ hlen' hlt' hnd'
      refine ⟨ha, hb, ?_⟩
      intro d hd hI hO
      rcases List.mem_cons.mp hd with heq | hm
      · subst heq
        exact passConnLoop_registry_mono rest _ _ _ (lookup_cons_self h (connKey d) d.handler)
      · exact hcl d hm hI hO

/-- If every open TCP connection of the scan is already registered, the
loop exports nothing, leaves the registry alone and does not set the
flag. -/
theorem passConnLoop_all_registered (l : List Conn) (h : List (String × Handler))
    (acc : List SocketInfo)
    (hall : ∀ c ∈ l, c.isConnImpl = true → c.isOpen = true →
      (h.lookup (connKey c)).isSome = true) :
    passConnLoop l h acc = (acc, false, h) := by
  induction l generalizing acc with
  | nil => rfl
  | cons c rest ih =>
    rw [passConnLoop_cons]
    by_cases h1 : c.isConnImpl = false
    · rw [if_pos h1]
      exact ih acc fun d hd => hall d (List.mem_cons_of_mem c hd)
    rw [if_neg h1]
    by_cases h2 : c.isOpen = false
    · rw [if_pos h2]
      exact ih acc fun d hd => hall d (List.mem_cons_of_mem c hd)
    rw [if_neg h2]
    have hI : c.isConnImpl = true := by
      revert h1; cases c.isConnImpl <;> simp
    have hO : c.isOpen = true := by
      revert h2; cases c.isOpen <;> simp
    rw [if_pos (hall c (List.mem_cons_self c rest) hI hO)]
    exact ih acc fun d hd => hall d (List.mem_cons_of_mem c hd)

/-- C10: when the eligible unregistered connections number exactly
`MAX_FD_SIZE`, the reply exports all of them and still sets
`has_more_fd`; the follow-up identical request then returns an empty
batch with the flag unset. -/
theorem passConnectionSocket_exact_max (s : Server)
    (hlen : (eligibleNew (serverConns s) s.handlers).length = MAX_FD_SIZE)
    (hnd : ((eligibleNew (serverConns s) s.handlers).map connKey).Nodup) :
    (getConnectionSocketsForChild s).1.sockets.length = MAX_FD_SIZE ∧
      (getConnectionSocketsForChild s).1.has_more_fd = true ∧
      (getConnectionSocketsForChild
          { s with handlers := (getConnectionSocketsForChild s).2 }).1.sockets = [] ∧
      (getConnectionSocketsForChild
          { s with handlers := (getConnectionSocketsForChild s).2 }).1.has_more_fd = false := by
  obtain ⟨ha, hb, hcl⟩ := passConnLoop_fill (serverConns s) s.handlers []
    (by simpa using hlen) (by simp [MAX_FD_SIZE]) hnd
  have hall := passConnLoop_all_registered (serverConns s)
    ((passConnLoop (serverConns s) s.handlers []).2.2) [] hcl
  simp only [getConnectionSocketsForChild_def]
  have hs' : serverConns
      { s with handlers := (passConnLoop (serverConns s) s.handlers []).2.2 } =
      serverConns s := rfl
  have hh : ({ s with handlers := (passConnLoop (serverConns s) s.handlers []).2.2 }
      : Server).handlers = (passConnLoop (serverConns s) s.handlers []).2.2 := rfl
  refine ⟨ha, hb, ?_, ?_⟩ <;>
    simp only [hs', hh, hall]

end HotRestart

namespace HotRestart

/-! ## Concrete connection populations for the scan witnesses -/

/-- The i-th open TCP connection of the witness populations; distinct
remote addresses give distinct registry keys. -/
def mkConn (i : Nat) : Conn :=
  { isConnImpl := true, isOpen := true, localAddr := "l", remoteAddr := Nat.repr i,
    fd := Int.ofNat i, buffer := "", handler := { isOpen := true, readData := "" } }

/-- `n` open TCP connections with pairwise distinct keys. -/
def manyConns (n : Nat) : List Conn := (List.range n).map mkConn

/-- A server with one worker owning one TCP listener with `n` open
connections and an empty registry. -/
def connServer (n : Nat) : Server :=
  { baseServer with workers := [[{ isTcp := true, contexts := [manyConns n] }]] }

set_option maxRecDepth 1000000 in
/-- Witness for C1: with 101 eligible connections, the 101st is left
unregistered and the reply's `has_more_fd` flag is set. -/
theorem passConnectionSocket_batch_witness :
    (∃ c, c ∈ serverConns (connServer 101) ∧ c.isConnImpl = true ∧ c.isOpen = true ∧
        ((getConnectionSocketsForChild (connServer 101)).2.lookup (connKey c)) = none) ∧
      (getConnectionSocketsForChild (connServer 101)).1.has_more_fd = true := by
  have hex : ∃ c, c ∈ serverConns (connServer 101) ∧ c.isConnImpl = true ∧ c.isOpen = true ∧
      ((getConnectionSocketsForChild (connServer 101)).2.lookup (connKey c)) = none :=
    ⟨mkConn 100, by decide, rfl, rfl, by decide⟩
  exact ⟨hex, (passConnectionSocket_batch (connServer 101)).2 hex⟩

/-- Witness for C2: two successive invocations over overlapping
connection populations never export a key twice. -/
theorem passConnectionSocket_no_reexport_witness :
    ((runSeq [manyConns 3, manyConns 5] []).flatten).Nodup :=
  (passConnectionSocket_no_reexport [manyConns 3, manyConns 5] []).1

set_option maxRecDepth 1000000 in
/-- Witness for C10: with exactly 100 eligible connections the reply is
full with `has_more_fd` set, and the follow-up request returns an empty
batch with the flag unset. -/
theorem passConnectionSocket_exact_max_witness :
    (getConnectionSocketsForChild (connServer 100)).1.sockets.length = MAX_FD_SIZE ∧
      (getConnectionSocketsForChild (connServer 100)).1.has_more_fd = true ∧
      (getConnectionSocketsForChild
          { connServer 100 with
            handlers := (getConnectionSocketsForChild (connServer 100)).2 }).1.sockets = [] ∧
      (getConnectionSocketsForChild
          { connServer 100 with
            handlers := (getConnectionSocketsForChild (connServer 100)).2 }).1.has_more_fd
        = false :=
  passConnectionSocket_exact_max (connServer 100) (by decide) (by decide)

end HotRestart
